import Mathlib

/-!
Verification of the lucidata translation pipeline.

This file gives a shallow embedding, over `List Char` strings, of the
Python source of the repository:

* `src/llm_engine/src/llm_processor.py` — `parse_llm_response`,
  `generate_prompt`, `format_schema_for_prompt`;
* `src/llm_engine/src/db_schema.py` — `get_database_schema`,
  `get_hardcoded_schema`;
* `src/query_runner/src/main.py` — the `execute_query` endpoint handler.

Python strings are modelled as `List Char`, Python floats as `ℚ`, and
the fallible calls (database connection, catalog queries, statement
execution) as explicit outcome values supplied by an environment record.
-/

/-! ### String primitives

`splitFirst p s` models the two-element result of Python's
`s.split(p, 1)` when the separator occurs: it returns
`some (before, after)` where `before` is the part of `s` in front of the
first occurrence of `p` and `after` the part behind it, and `none` when
`p` does not occur in `s`.  `pyIn p s` models Python's `p in s`.
-/

def splitFirst (p : List Char) : List Char → Option (List Char × List Char)
  | [] => if p.isPrefixOf [] then some ([], []) else none
  | c :: t =>
    if p.isPrefixOf (c :: t) then some ([], (c :: t).drop p.length)
    else (splitFirst p t).map (fun q => (c :: q.1, q.2))

def pyIn (p s : List Char) : Bool := (splitFirst p s).isSome

/-- The whitespace characters stripped by Python's `str.strip()`. -/
def isSpaceChar (c : Char) : Bool :=
  (c == ' ') || (c == '\t') || (c == '\n') || (c == '\r') || (c == '\x0b') || (c == '\x0c')

/-- Model of Python's `str.strip()`: drop whitespace from both ends. -/
def pyStrip (s : List Char) : List Char :=
  ((s.dropWhile isSpaceChar).reverse.dropWhile isSpaceChar).reverse

/-! ### Python `float()` on finite decimal literals

`pyFloat` models Python's built-in `float` applied to a string: it
ignores surrounding whitespace and accepts an optional sign, a decimal
mantissa (`digits`, `digits.digits`, `digits.` or `.digits`) and an
optional exponent part `e`/`E` followed by an optionally signed decimal
integer.  The value is returned exactly, as a rational number.  The
special spellings `inf`/`nan` and digit-grouping underscores are not
modelled; no claim in this development depends on them.
-/

def digitVal (c : Char) : ℕ := c.toNat - 48

def digitsToNat (ds : List Char) : ℕ := ds.foldl (fun a c => 10 * a + digitVal c) 0

/-- Split a mantissa into its integer-part digits and fractional-part
digits, or `none` when it is not of one of the shapes `digits`,
`digits.digits`, `digits.` or `.digits`. -/
def parseMantissaParts (s : List Char) : Option (List Char × List Char) :=
  let ip := s.takeWhile Char.isDigit
  let r := s.dropWhile Char.isDigit
  match r with
  | [] => if ip.isEmpty then none else some (ip, [])
  | '.' :: f =>
    if f.all Char.isDigit && (!ip.isEmpty || !f.isEmpty) then some (ip, f)
    else none
  | _ => none

def parseSignedParts (s : List Char) : Option (Bool × List Char × List Char) :=
  match s with
  | '-' :: t => (parseMantissaParts t).map (fun q => (true, q))
  | '+' :: t => (parseMantissaParts t).map (fun q => (false, q))
  | _ => (parseMantissaParts s).map (fun q => (false, q))

def parseExpDigits (s : List Char) : Option ℤ :=
  if !s.isEmpty && s.all Char.isDigit then some ((digitsToNat s : ℤ)) else none

def parseSignedExp (s : List Char) : Option ℤ :=
  match s with
  | '-' :: t => (parseExpDigits t).map (fun z => -z)
  | '+' :: t => parseExpDigits t
  | _ => parseExpDigits s

def isExpChar (c : Char) : Bool := (c == 'e') || (c == 'E')

/-- The exact rational value of a decimal literal with sign `neg`,
integer digits `ip`, fractional digits `f` and decimal exponent `e`:
`±(ip.f) · 10 ^ e`. -/
def ratValue (neg : Bool) (ip f : List Char) (e : ℤ) : ℚ :=
  let base : ℤ := ((digitsToNat ip * 10 ^ f.length + digitsToNat f : ℕ) : ℤ)
  let n : ℤ := if neg then -base else base
  match e with
  | .ofNat k => mkRat (n * ((10 ^ k : ℕ) : ℤ)) (10 ^ f.length)
  | .negSucc k => mkRat n (10 ^ f.length * 10 ^ (k + 1))

def pyFloatCore (s : List Char) : Option ℚ :=
  let m := s.takeWhile (fun c => !isExpChar c)
  let r := s.dropWhile (fun c => !isExpChar c)
  match r with
  | [] => (parseSignedParts m).map (fun q => ratValue q.1 q.2.1 q.2.2 0)
  | _ :: etext =>
    match parseSignedParts m, parseSignedExp etext with
    | some q, some ev => some (ratValue q.1 q.2.1 q.2.2 ev)
    | _, _ => none

def pyFloat (s : List Char) : Option ℚ := pyFloatCore (pyStrip s)

/-! ### The response parser (`parse_llm_response`) -/

/-- The marker `"SQL:"`. -/
def mSQL : List Char := "SQL:".toList

/-- The marker `"EXPLANATION:"`. -/
def mEXPL : List Char := "EXPLANATION:".toList

/-- The marker `"CONFIDENCE:"`. -/
def mCONF : List Char := "CONFIDENCE:".toList

/-- The fallback statement substituted when no SQL could be extracted. -/
def fallbackQuery : List Char := "SELECT * FROM cars LIMIT 10;".toList

/-- Result type of the parser: `(sql, explanation, confidence)` as in the
Python tuple returned by `parse_llm_response`. -/
structure TranslationResult where
  sqlQuery : List Char
  explanation : Option (List Char)
  confidence : ℚ
deriving DecidableEq, Repr

/-- Lines 114–117 of `llm_processor.py`:
`response.split("SQL:", 1)[1].split("EXPLANATION:", 1)[0].strip()` when
the `SQL:` marker occurs, `None` otherwise. -/
def extractSql (r : List Char) : Option (List Char) :=
  match splitFirst mSQL r with
  | none => none
  | some (_, tail) =>
    some (pyStrip (match splitFirst mEXPL tail with
      | some (b, _) => b
      | none => tail))

/-- Lines 119–122 of `llm_processor.py`:
`response.split("EXPLANATION:", 1)[1].split("CONFIDENCE:", 1)[0].strip()`
when the `EXPLANATION:` marker occurs, `None` otherwise. -/
def extractExplanation (r : List Char) : Option (List Char) :=
  match splitFirst mEXPL r with
  | none => none
  | some (_, tail) =>
    some (pyStrip (match splitFirst mCONF tail with
      | some (b, _) => b
      | none => tail))

/-- The text Python's `float` is applied to on line 128 when the
`CONFIDENCE:` marker occurs: everything after its first occurrence.
(The code strips it first; since `float` itself ignores surrounding
whitespace, applying `pyFloat` to the unstripped tail is the same.) -/
def confidenceParsed (r : List Char) : Option ℚ :=
  match splitFirst mCONF r with
  | none => none
  | some (_, tail) => pyFloat tail

/-- Lines 124–130 of `llm_processor.py`: confidence is `0.0` when the
marker is absent, the parsed float when parsing succeeds, and `0.5` when
`float` raises `ValueError`. -/
def extractConfidence (r : List Char) : ℚ :=
  match splitFirst mCONF r with
  | none => 0
  | some (_, tail) =>
    match pyFloat tail with
    | some c => c
    | none => mkRat 1 2

/-- `parse_llm_response` (lines 108–136 of `llm_processor.py`).  The
final `if not sql` test is true both when the `SQL:` marker was absent
(`sql is None`) and when the stripped candidate is the empty string. -/
def parse_llm_response (r : List Char) : TranslationResult :=
  let expl := extractExplanation r
  let conf := extractConfidence r
  match extractSql r with
  | none => ⟨fallbackQuery, expl, conf⟩
  | some s => if s = [] then ⟨fallbackQuery, expl, conf⟩ else ⟨s, expl, conf⟩

example : parse_llm_response "SQL: SELECT 1;\nEXPLANATION: one\nCONFIDENCE: 0.9".toList =
    ⟨"SELECT 1;".toList, some "one".toList, mkRat 9 10⟩ := by decide

example : parse_llm_response "no markers here".toList =
    ⟨fallbackQuery, none, 0⟩ := by decide

example : pyFloat "0.5".toList = some (mkRat 1 2) := by decide

example : pyFloat "notanumber".toList = none := by decide

example : pyFloat " 2e1 ".toList = some 20 := by decide

example : pyFloat "-1.5e-1".toList = some (mkRat (-3) 20) := by decide

example : pyFloat "2".toList = some 2 := by decide

/-! ### The remainder-based algorithm of spec §4.4

`specRemainderParse` formalises the parsing algorithm as worded in the
specification: "each step operates on the remainder of the text after
removing the portion consumed by the previous step".  Step 1 consumes
everything up to (but not including) the next `EXPLANATION:` marker when
it is present (else the whole text), step 2 likewise consumes up to the
next `CONFIDENCE:` marker.  This second definition follows the spec's
words and exists to be compared against `parse_llm_response`, which is
translated from the code. -/

def specRemainderStep1 (r : List Char) : Option (List Char) × List Char :=
  match splitFirst mSQL r with
  | none => (none, r)
  | some (_, tail) =>
    match splitFirst mEXPL tail with
    | none => (some (pyStrip tail), [])
    | some (b, a) => (some (pyStrip b), mEXPL ++ a)

def specRemainderStep2 (rem : List Char) : Option (List Char) × List Char :=
  match splitFirst mEXPL rem with
  | none => (none, rem)
  | some (_, tail) =>
    match splitFirst mCONF tail with
    | none => (some (pyStrip tail), [])
    | some (b, a) => (some (pyStrip b), mCONF ++ a)

def specRemainderStep3 (rem : List Char) : ℚ :=
  match splitFirst mCONF rem with
  | none => 0
  | some (_, tail) =>
    match pyFloat tail with
    | some c => c
    | none => mkRat 1 2

def specRemainderParse (r : List Char) : TranslationResult :=
  let s1 := specRemainderStep1 r
  let s2 := specRemainderStep2 s1.2
  let conf := specRemainderStep3 s2.2
  match s1.1 with
  | none => ⟨fallbackQuery, s2.1, conf⟩
  | some s => if s = [] then ⟨fallbackQuery, s2.1, conf⟩ else ⟨s, s2.1, conf⟩

/-- The formatted text of the round-trip claim:
`"SQL: " ++ S ++ "\n" ++ "EXPLANATION: " ++ E ++ "\n" ++ "CONFIDENCE: " ++ C`. -/
def claimFormat (S E C : List Char) : List Char :=
  "SQL: ".toList ++ S ++ "\n".toList ++ "EXPLANATION: ".toList ++ E ++
    "\n".toList ++ "CONFIDENCE: ".toList ++ C

/-! ### The prompt builder (`generate_prompt`, `format_schema_for_prompt`) -/

/-- A column as assembled by `get_database_schema`:
`{"name": ..., "type": ..., "nullable": ...}`. -/
structure ColumnDescriptor where
  name : List Char
  type : List Char
  nullable : Bool
deriving DecidableEq, Repr

/-- A schema dictionary: table name to column list, in insertion order.
The Python value nests the list under a `"columns"` key; the pair's
second component models exactly that list. -/
abbrev DbSchema : Type := List (List Char × List ColumnDescriptor)

/-- The literal `"No schema available."`. -/
def noSchemaText : List Char := "No schema available.".toList

/-- One line `Table: <name> (<col1> <type1>, <col2> <type2>, ...)` of the
serialized schema (lines 101–104 of `llm_processor.py`). -/
def schemaLine (t : List Char × List ColumnDescriptor) : List Char :=
  "Table: ".toList ++ t.1 ++ " (".toList ++
    (List.intercalate ", ".toList (t.2.map (fun c => c.name ++ " ".toList ++ c.type))) ++
    ")".toList

/-- `format_schema_for_prompt` (lines 94–106 of `llm_processor.py`).
`none` models Python `None`, `some []` the empty dict; both fail the
`if not db_schema` truthiness test and give `"No schema available."`. -/
def format_schema_for_prompt (db : Option DbSchema) : List Char :=
  match db with
  | none => noSchemaText
  | some [] => noSchemaText
  | some tables => List.intercalate "\n".toList (tables.map schemaLine)

/-- The prompt template text before the serialized schema. -/
def promptPre : List Char :=
  "\nGiven the following PostgreSQL database schema:\n\n".toList

/-- The prompt template text between the serialized schema and the
question. -/
def promptMid : List Char :=
  "\n\nTranslate this natural language question into a valid SQL query:\n\"".toList

/-- The prompt template text after the question. -/
def promptPost : List Char :=
  "\"\n\nReturn the answer in the following format:\nSQL: <the SQL query>\nEXPLANATION: <brief explanation of how the query works>\nCONFIDENCE: <a number from 0 to 1 indicating confidence>\n\nMake sure the SQL is valid PostgreSQL syntax, contains no syntax errors, and would run correctly against the described database.\n".toList

/-- `generate_prompt` (lines 71–92 of `llm_processor.py`): the f-string
template with the serialized schema and the verbatim question spliced in. -/
def generate_prompt (query : List Char) (db : Option DbSchema) : List Char :=
  promptPre ++ (format_schema_for_prompt db ++ (promptMid ++ (query ++ promptPost)))

/-! ### The schema provider (`get_database_schema`, `get_hardcoded_schema`) -/

/-- `get_hardcoded_schema` (lines 62–85 of `db_schema.py`): the fixed
fallback describing the `cars` table with its 13 columns. -/
def get_hardcoded_schema : DbSchema :=
  [("cars".toList,
    [⟨"id".toList, "integer".toList, false⟩,
     ⟨"model".toList, "varchar(50)".toList, false⟩,
     ⟨"mpg".toList, "numeric(5,1)".toList, true⟩,
     ⟨"cyl".toList, "integer".toList, true⟩,
     ⟨"disp".toList, "numeric(6,1)".toList, true⟩,
     ⟨"hp".toList, "integer".toList, true⟩,
     ⟨"drat".toList, "numeric(4,2)".toList, true⟩,
     ⟨"wt".toList, "numeric(5,3)".toList, true⟩,
     ⟨"qsec".toList, "numeric(5,2)".toList, true⟩,
     ⟨"vs".toList, "integer".toList, true⟩,
     ⟨"am".toList, "integer".toList, true⟩,
     ⟨"gear".toList, "integer".toList, true⟩,
     ⟨"carb".toList, "integer".toList, true⟩])]

/-- A column row as returned by the `information_schema.columns` query:
`(column_name, data_type, is_nullable)`. -/
abbrev ColumnRow : Type := List Char × List Char × List Char

/-- Environment of one `get_database_schema` call: whether `DATABASE_URL`
is set, whether `psycopg2.connect` succeeds, the outcome of the
`pg_tables` catalog query, and the outcome of the per-table
`information_schema.columns` query.  An `Except.error` models a raised
exception. -/
structure SchemaEnv where
  databaseUrl : Option (List Char)
  connectOk : Bool
  tablesResult : Except (List Char) (List (List Char))
  columnsResult : List Char → Except (List Char) (List ColumnRow)

/-- Outcome of one `get_database_schema` call, together with a ledger of
how many database connections the call opened and how many it closed. -/
structure SchemaFetchOutcome where
  schema : DbSchema
  opened : ℕ
  closed : ℕ
deriving DecidableEq

/-- The `for (table_name,) in tables` loop body (lines 34–52 of
`db_schema.py`): query the columns of each table in order; a raised
exception aborts the whole loop. -/
def buildSchema (env : SchemaEnv) : List (List Char) → Except (List Char) DbSchema
  | [] => .ok []
  | t :: ts =>
    match env.columnsResult t with
    | .error e => .error e
    | .ok rows =>
      match buildSchema env ts with
      | .error e => .error e
      | .ok rest =>
        .ok ((t, rows.map (fun r => ⟨r.1, r.2.1, r.2.2 == "YES".toList⟩)) :: rest)

/-- `get_database_schema` (lines 11–60 of `db_schema.py`).  The source
calls `conn.close()` only on the success path (line 54); the broad
`except Exception` handler (line 57) returns the hardcoded schema
without closing, which the `opened`/`closed` ledger records.  A failed
`psycopg2.connect` opens no connection. -/
def get_database_schema (env : SchemaEnv) : SchemaFetchOutcome :=
  match env.databaseUrl with
  | none => ⟨get_hardcoded_schema, 0, 0⟩
  | some _ =>
    if env.connectOk then
      match env.tablesResult with
      | .error _ => ⟨get_hardcoded_schema, 1, 0⟩
      | .ok tables =>
        match buildSchema env tables with
        | .error _ => ⟨get_hardcoded_schema, 1, 0⟩
        | .ok schema => ⟨schema, 1, 1⟩
    else ⟨get_hardcoded_schema, 0, 0⟩

/-! ### The query runner endpoint (`execute_query` of `query_runner/src/main.py`) -/

/-- A result row: column name to value, both modelled as strings. -/
abbrev QRRow : Type := List (List Char × List Char)

/-- Outcome of the `cursor.execute`/`fetchall` block: either rows plus
the cursor description (`none` models a `None` description), or a raised
`psycopg2.Error`, or some other raised exception. -/
inductive ExecOutcome where
  | success (rows : List QRRow) (description : Option (List (List Char)))
  | pgError (msg : List Char)
  | otherError (msg : List Char)

/-- Environment of one `/execute-query` request: `DATABASE_URL`, the
outcome of `psycopg2.connect` (error means a raised exception), and the
outcome of executing the statement. -/
structure QueryRunnerEnv where
  databaseUrl : Option (List Char)
  connectResult : Except (List Char) Unit
  execResult : ExecOutcome

/-- A Python exception as it propagates inside the handler: either a
`fastapi.HTTPException` (which subclasses `Exception`!) or any other
exception, carrying its message. -/
inductive PyExc where
  | http (status : ℕ) (detail : List Char)
  | raw (msg : List Char)

/-- `str(e)`: Starlette's `HTTPException.__str__` renders
`"<status>: <detail>"`; for other exceptions the message itself. -/
def pyExcStr : PyExc → List Char
  | .http s d => (Nat.repr s).toList ++ ": ".toList ++ d
  | .raw m => m

structure QueryMetadata where
  row_count : ℕ
  query_execution_time_ms : Option ℕ
  column_names : List (List Char)
deriving DecidableEq

structure ExecuteQueryResponse where
  results : List QRRow
  metadata : QueryMetadata

structure HttpErrorResponse where
  status : ℕ
  detail : List Char

/-- The body of the outer `try` of `execute_query` (lines 62–97 of
`query_runner/src/main.py`): a missing `DATABASE_URL` raises
`HTTPException(500)`, a failed connect raises a raw `psycopg2` error, a
`psycopg2.Error` during execution raises `HTTPException(400)`, and any
other exception of the inner block propagates raw. -/
def execute_query_body (env : QueryRunnerEnv) : Except PyExc ExecuteQueryResponse :=
  match env.databaseUrl with
  | none => .error (.http 500 "Database connection not configured".toList)
  | some _ =>
    match env.connectResult with
    | .error m => .error (.raw m)
    | .ok _ =>
      match env.execResult with
      | .success rows desc =>
        .ok ⟨rows, ⟨rows.length, none, desc.getD []⟩⟩
      | .pgError m => .error (.http 400 ("Query execution error: ".toList ++ m))
      | .otherError m => .error (.raw m)

/-- `execute_query` (lines 59–101): the outer `except Exception` handler
catches every exception raised in the `try` block — `HTTPException`
included, since it subclasses `Exception` — and re-raises it as
`HTTPException(500, "Error: " + str(e))`.  A `return` from the inner
block passes through untouched. -/
def execute_query (env : QueryRunnerEnv) : Except HttpErrorResponse ExecuteQueryResponse :=
  match execute_query_body env with
  | .ok r => .ok r
  | .error e => .error ⟨500, "Error: ".toList ++ pyExcStr e⟩

example :
    (get_database_schema ⟨some "u".toList, true, .ok ["t".toList],
      fun _ => .ok [("c".toList, "integer".toList, "YES".toList)]⟩).schema =
      [("t".toList, [⟨"c".toList, "integer".toList, true⟩])] := by decide

/-! ### Machinery: where `splitFirst` finds the first occurrence -/

/-- `splitFirst` at an occurrence sitting at the very front. -/
theorem splitFirst_of_isPrefixOf {p s : List Char} (h : p.isPrefixOf s = true) :
    splitFirst p s = some ([], s.drop p.length) := by
  cases s with
  | nil =>
    have hp : p = [] := by
      cases p with
      | nil => rfl
      | cons a as => simp at h
    subst hp
    simp [splitFirst]
  | cons c t => simp [splitFirst, h]

theorem splitFirst_prefix (p b : List Char) : splitFirst p (p ++ b) = some ([], b) := by
  have h : p.isPrefixOf (p ++ b) = true := by
    simp
  rw [splitFirst_of_isPrefixOf h, List.drop_left]

/-- One non-matching head character is skipped. -/
theorem splitFirst_cons_of_ne {p : List Char} {c : Char} {t : List Char}
    (h : p.isPrefixOf (c :: t) = false) :
    splitFirst p (c :: t) = (splitFirst p t).map (fun q => (c :: q.1, q.2)) := by
  simp [splitFirst, h]

theorem isPrefixOf_cons_false {x : Char} {xs : List Char} {c : Char} {t : List Char}
    (h : (x == c) = false) : ((x :: xs).isPrefixOf (c :: t)) = false := by
  simp [List.isPrefixOf_cons₂, h]

theorem pyIn_cons (p : List Char) (c : Char) (t : List Char) :
    pyIn p (c :: t) = (p.isPrefixOf (c :: t) || pyIn p t) := by
  by_cases h : p.isPrefixOf (c :: t) = true
  · simp [pyIn, splitFirst, h]
  · have h' : p.isPrefixOf (c :: t) = false := by
      revert h
      cases p.isPrefixOf (c :: t) <;> simp
    simp [pyIn, splitFirst, h']

theorem pyIn_nil (p : List Char) : pyIn p [] = p.isPrefixOf [] := by
  by_cases h : p.isPrefixOf [] = true
  · simp [pyIn, splitFirst, h]
  · have h' : p.isPrefixOf [] = false := by
      revert h
      cases p.isPrefixOf [] <;> simp
    simp [pyIn, splitFirst, h']

/-- A prefix of a suffix is an occurrence. -/
theorem pyIn_of_suffix_prefix {p t a : List Char} (hsuf : t <:+ a)
    (hpre : p.isPrefixOf t = true) : pyIn p a = true := by
  induction a with
  | nil =>
    have ht : t = [] := List.eq_nil_of_suffix_nil hsuf
    subst ht
    rw [pyIn_nil, hpre]
  | cons c a ih =>
    rcases List.suffix_cons_iff.mp hsuf with h | h
    · subst h
      rw [pyIn_cons, hpre, Bool.true_or]
    · rw [pyIn_cons, ih h, Bool.or_true]

/-- No occurrence of `p` starts strictly inside `a` when `a ++ b` is scanned. -/
def NoOccStart (p a b : List Char) : Prop :=
  ∀ i, i < a.length → p.isPrefixOf (a.drop i ++ b) = false

theorem noOcc_nil (p b : List Char) : NoOccStart p [] b := by
  intro i hi
  simp at hi

theorem noOcc_cons {p : List Char} {c : Char} {a b : List Char}
    (hpre : p.isPrefixOf (c :: (a ++ b)) = false) (h : NoOccStart p a b) :
    NoOccStart p (c :: a) b := by
  intro i hi
  cases i with
  | zero => simpa using hpre
  | succ j =>
    have hj : j < a.length := Nat.lt_of_succ_lt_succ hi
    simpa using h j hj

theorem noOcc_append {p a₁ a₂ b : List Char}
    (h₁ : NoOccStart p a₁ (a₂ ++ b)) (h₂ : NoOccStart p a₂ b) :
    NoOccStart p (a₁ ++ a₂) b := by
  intro i hi
  rcases Nat.lt_or_ge i a₁.length with hlt | hge
  · have : (a₁ ++ a₂).drop i = a₁.drop i ++ a₂ :=
      List.drop_append_of_le_length (Nat.le_of_lt hlt)
    rw [this, List.append_assoc]
    exact h₁ i hlt
  · obtain ⟨j, hj⟩ : ∃ j, i = a₁.length + j := ⟨i - a₁.length, (Nat.add_sub_cancel' hge).symm⟩
    subst hj
    have : (a₁ ++ a₂).drop (a₁.length + j) = a₂.drop j := List.drop_append j
    rw [this]
    have hjlt : j < a₂.length := by
      have := hi
      simp [List.length_append] at this
      omega
    exact h₂ j hjlt

/-- A block that does not contain `p`, followed by a character absent from
`p`, hosts no occurrence start: an occurrence inside the block would make
`pyIn p a` true, and one straddling the boundary would put `c` into `p`. -/
theorem noOcc_block {p a : List Char} {c : Char} {b : List Char}
    (hin : pyIn p a = false) (hc : c ∉ p) : NoOccStart p a (c :: b) := by
  intro i hi
  by_contra hcon
  have hpre : p.isPrefixOf (a.drop i ++ c :: b) = true := by
    revert hcon
    cases p.isPrefixOf (a.drop i ++ c :: b) <;> simp
  have hP : p <+: a.drop i ++ c :: b := List.isPrefixOf_iff_prefix.mp hpre
  rcases le_or_lt p.length (a.drop i).length with hle | hlt
  · have hx : p <+: a.drop i :=
      List.prefix_of_prefix_length_le hP (List.prefix_append _ _) (by simpa using hle)
    have : pyIn p a = true :=
      pyIn_of_suffix_prefix (List.drop_suffix i a) (List.isPrefixOf_iff_prefix.mpr hx)
    rw [this] at hin
    exact absurd hin (by simp)
  · have hx : a.drop i <+: p :=
      List.prefix_of_prefix_length_le (List.prefix_append _ _) hP (Nat.le_of_lt hlt)
    obtain ⟨r, hr⟩ := hx
    obtain ⟨z, hz⟩ := hP
    rw [← hr, List.append_assoc] at hz
    have hrz : r ++ z = c :: b := List.append_cancel_left hz
    have hrne : r ≠ [] := by
      intro h0
      rw [h0, List.append_nil] at hr
      rw [← hr] at hlt
      exact Nat.lt_irrefl _ hlt
    cases r with
    | nil => exact hrne rfl
    | cons r0 rt =>
      have hr0 : r0 = c := by
        have := hrz
        simp at this
        exact this.1
      subst hr0
      apply hc
      rw [← hr]
      exact List.mem_append_right _ (List.mem_cons_self _ _)

/-- Scanning `a ++ b` with no occurrence starting inside `a` reduces to
scanning `b`. -/
theorem splitFirst_append_of_noOcc {p : List Char} {a b : List Char}
    (h : NoOccStart p a b) :
    splitFirst p (a ++ b) = (splitFirst p b).map (fun q => (a ++ q.1, q.2)) := by
  induction a with
  | nil =>
    simp only [List.nil_append]
    cases splitFirst p b with
    | none => rfl
    | some q => rfl
  | cons c a ih =>
    have h0 : p.isPrefixOf (c :: (a ++ b)) = false := by
      simpa using h 0 (Nat.succ_pos _)
    have htail : NoOccStart p a b := by
      intro i hi
      simpa using h (i + 1) (Nat.succ_lt_succ hi)
    rw [List.cons_append, splitFirst_cons_of_ne h0, ih htail]
    cases splitFirst p b with
    | none => rfl
    | some q => rfl

/-- The first occurrence of `p` in `a ++ p ++ b` is the explicit one when
no occurrence starts inside `a`. -/
theorem splitFirst_first {p a b : List Char} (h : NoOccStart p a (p ++ b)) :
    splitFirst p (a ++ (p ++ b)) = some (a, b) := by
  rw [splitFirst_append_of_noOcc h, splitFirst_prefix]
  simp

theorem pyIn_append_middle (p a b : List Char) : pyIn p (a ++ (p ++ b)) = true := by
  induction a with
  | nil =>
    simp only [List.nil_append]
    have h : p.isPrefixOf (p ++ b) = true := by simp
    cases hp : p ++ b with
    | nil =>
      rw [hp] at h
      rw [pyIn_nil, h]
    | cons c t =>
      rw [hp] at h
      rw [pyIn_cons, h, Bool.true_or]
  | cons c a ih =>
    rw [List.cons_append, pyIn_cons, ih, Bool.or_true]

/-! ### Machinery: `pyStrip` -/

theorem pyStrip_nil : pyStrip [] = [] := by rfl

theorem pyStrip_cons_space {c : Char} (hc : isSpaceChar c = true) (s : List Char) :
    pyStrip (c :: s) = pyStrip s := by
  simp [pyStrip, List.dropWhile_cons, hc]

/-- Right trim of an already left-trimmed list. -/
def trimRight (t : List Char) : List Char := (t.reverse.dropWhile isSpaceChar).reverse

theorem pyStrip_eq_trimRight (s : List Char) :
    pyStrip s = trimRight (s.dropWhile isSpaceChar) := rfl

theorem trimRight_append_space {c : Char} (hc : isSpaceChar c = true) (t : List Char) :
    trimRight (t ++ [c]) = trimRight t := by
  simp [trimRight, List.reverse_append, List.dropWhile_cons, hc]

theorem pyStrip_append_space {c : Char} (hc : isSpaceChar c = true) (s : List Char) :
    pyStrip (s ++ [c]) = pyStrip s := by
  rw [pyStrip_eq_trimRight, pyStrip_eq_trimRight]
  cases hL : s.dropWhile isSpaceChar with
  | nil =>
    have h1 : (s ++ [c]).dropWhile isSpaceChar = [c].dropWhile isSpaceChar := by
      rw [List.dropWhile_append, hL]
      simp
    rw [h1]
    simp [List.dropWhile_cons, hc]
  | cons x xs =>
    have h1 : (s ++ [c]).dropWhile isSpaceChar = (x :: xs) ++ [c] := by
      rw [List.dropWhile_append, hL]
      simp
    rw [h1, trimRight_append_space hc]

/-- Stripping `' ' :: (s ++ ['\n'])` is stripping `s`: this is the shape
of the pieces the markers cut out of the claim format. -/
theorem pyStrip_wrap (s : List Char) : pyStrip (' ' :: (s ++ ['\n'])) = pyStrip s := by
  rw [pyStrip_cons_space (by decide), pyStrip_append_space (by decide)]

/-! ### Machinery: scanning the canonical `SQL/EXPLANATION/CONFIDENCE` format -/

theorem mEXPL_not_prefix_space (t : List Char) : mEXPL.isPrefixOf (' ' :: t) = false := rfl

theorem mEXPL_not_prefix_nl (t : List Char) : mEXPL.isPrefixOf ('\n' :: t) = false := rfl

theorem mCONF_not_prefix_space (t : List Char) : mCONF.isPrefixOf (' ' :: t) = false := rfl

theorem mCONF_not_prefix_nl (t : List Char) : mCONF.isPrefixOf ('\n' :: t) = false := rfl

theorem noOcc_mEXPL_sqlhead (X : List Char) : NoOccStart mEXPL (mSQL ++ [' ']) X := by
  intro i hi
  have hi5 : i < 5 := by simpa [mSQL] using hi
  interval_cases i <;> rfl

theorem noOcc_mCONF_sqlhead (X : List Char) : NoOccStart mCONF (mSQL ++ [' ']) X := by
  intro i hi
  have hi5 : i < 5 := by simpa [mSQL] using hi
  interval_cases i <;> rfl

theorem noOcc_mCONF_explhead (X : List Char) : NoOccStart mCONF (mEXPL ++ [' ']) X := by
  intro i hi
  have hi13 : i < 13 := by simpa [mEXPL] using hi
  interval_cases i <;> rfl

/-- No occurrence of `mEXPL` starts inside `' ' :: (S ++ ['\n'])` when `S`
does not contain it. -/
theorem noOcc_mEXPL_sqlseg {S : List Char} (h : pyIn mEXPL S = false) (X : List Char) :
    NoOccStart mEXPL (' ' :: (S ++ ['\n'])) X := by
  apply noOcc_cons (mEXPL_not_prefix_space _)
  apply noOcc_append
  · exact noOcc_block h (by decide)
  · exact noOcc_cons (mEXPL_not_prefix_nl _) (noOcc_nil _ _)

theorem noOcc_mCONF_sqlseg {S : List Char} (h : pyIn mCONF S = false) (X : List Char) :
    NoOccStart mCONF (' ' :: (S ++ ['\n'])) X := by
  apply noOcc_cons (mCONF_not_prefix_space _)
  apply noOcc_append
  · exact noOcc_block h (by decide)
  · exact noOcc_cons (mCONF_not_prefix_nl _) (noOcc_nil _ _)

/-- The canonical format, re-associated around the three markers. -/
theorem claimFormat_eq (S E C : List Char) :
    claimFormat S E C =
      (mSQL ++ [' ']) ++ (S ++ (['\n'] ++ ((mEXPL ++ [' ']) ++ (E ++ (['\n'] ++ (mCONF ++ ([' '] ++ C))))))) := by
  simp [claimFormat, mSQL, mEXPL, mCONF, List.append_assoc]

/-- Abbreviation for the part of the canonical format behind the
`EXPLANATION:` marker. -/
def fmtTailE (E C : List Char) : List Char := ' ' :: (E ++ ('\n' :: (mCONF ++ (' ' :: C))))

theorem splitFirst_mSQL_claimFormat (S E C : List Char) :
    splitFirst mSQL (claimFormat S E C) =
      some ([], ' ' :: (S ++ ('\n' :: (mEXPL ++ fmtTailE E C)))) := by
  have h : claimFormat S E C =
      mSQL ++ (' ' :: (S ++ ('\n' :: (mEXPL ++ fmtTailE E C)))) := by
    rw [claimFormat_eq]
    simp [fmtTailE, List.append_assoc]
  rw [h, splitFirst_prefix]

theorem splitFirst_mEXPL_tail (S E C : List Char) (h : pyIn mEXPL S = false) :
    splitFirst mEXPL (' ' :: (S ++ ('\n' :: (mEXPL ++ fmtTailE E C)))) =
      some (' ' :: (S ++ ['\n']), fmtTailE E C) := by
  have hshape : ' ' :: (S ++ ('\n' :: (mEXPL ++ fmtTailE E C))) =
      (' ' :: (S ++ ['\n'])) ++ (mEXPL ++ fmtTailE E C) := by
    simp [List.append_assoc]
  rw [hshape, splitFirst_first (noOcc_mEXPL_sqlseg h _)]

theorem splitFirst_mEXPL_claimFormat (S E C : List Char) (h : pyIn mEXPL S = false) :
    splitFirst mEXPL (claimFormat S E C) =
      some ((mSQL ++ [' ']) ++ (S ++ ['\n']), fmtTailE E C) := by
  have hshape : claimFormat S E C =
      ((mSQL ++ [' ']) ++ (S ++ ['\n'])) ++ (mEXPL ++ fmtTailE E C) := by
    rw [claimFormat_eq]
    simp [fmtTailE, List.append_assoc]
  rw [hshape]
  rw [splitFirst_first]
  apply noOcc_append (noOcc_mEXPL_sqlhead _)
  apply noOcc_append
  · exact noOcc_block h (by decide)
  · exact noOcc_cons (mEXPL_not_prefix_nl _) (noOcc_nil _ _)

theorem splitFirst_mCONF_fmtTailE (E C : List Char) (h : pyIn mCONF E = false) :
    splitFirst mCONF (fmtTailE E C) = some (' ' :: (E ++ ['\n']), ' ' :: C) := by
  have hshape : fmtTailE E C = (' ' :: (E ++ ['\n'])) ++ (mCONF ++ (' ' :: C)) := by
    simp [fmtTailE, List.append_assoc]
  rw [hshape, splitFirst_first (noOcc_mCONF_sqlseg h _)]

theorem splitFirst_mCONF_claimFormat (S E C : List Char)
    (hS : pyIn mCONF S = false) (hE : pyIn mCONF E = false) :
    splitFirst mCONF (claimFormat S E C) =
      some ((mSQL ++ [' ']) ++ ((S ++ ['\n']) ++ ((mEXPL ++ [' ']) ++ (E ++ ['\n']))), ' ' :: C) := by
  have hshape : claimFormat S E C =
      ((mSQL ++ [' ']) ++ ((S ++ ['\n']) ++ ((mEXPL ++ [' ']) ++ (E ++ ['\n'])))) ++
        (mCONF ++ (' ' :: C)) := by
    rw [claimFormat_eq]
    simp [List.append_assoc]
  rw [hshape]
  rw [splitFirst_first]
  apply noOcc_append (noOcc_mCONF_sqlhead _)
  apply noOcc_append
  · apply noOcc_append
    · exact noOcc_block hS (by decide)
    · exact noOcc_cons (mCONF_not_prefix_nl _) (noOcc_nil _ _)
  · apply noOcc_append (noOcc_mCONF_explhead _)
    apply noOcc_append
    · exact noOcc_block hE (by decide)
    · exact noOcc_cons (mCONF_not_prefix_nl _) (noOcc_nil _ _)

theorem pyFloat_cons_space (C : List Char) : pyFloat (' ' :: C) = pyFloat C := by
  simp [pyFloat, pyStrip_cons_space (show isSpaceChar ' ' = true by decide)]

theorem extractSql_claimFormat (S E C : List Char) (h : pyIn mEXPL S = false) :
    extractSql (claimFormat S E C) = some (pyStrip S) := by
  simp [extractSql, splitFirst_mSQL_claimFormat, splitFirst_mEXPL_tail S E C h, pyStrip_wrap]

theorem extractExplanation_claimFormat (S E C : List Char)
    (hS : pyIn mEXPL S = false) (hE : pyIn mCONF E = false) :
    extractExplanation (claimFormat S E C) = some (pyStrip E) := by
  simp [extractExplanation, splitFirst_mEXPL_claimFormat S E C hS,
    splitFirst_mCONF_fmtTailE E C hE, pyStrip_wrap]

theorem extractConfidence_claimFormat (S E C : List Char)
    (hS : pyIn mCONF S = false) (hE : pyIn mCONF E = false) :
    extractConfidence (claimFormat S E C) = (pyFloat C).getD (mkRat 1 2) := by
  simp only [extractConfidence, splitFirst_mCONF_claimFormat S E C hS hE, pyFloat_cons_space]
  cases pyFloat C <;> rfl

/-- The parser's confidence component does not depend on the SQL fallback
branch. -/
theorem parse_confidence_eq (r : List Char) :
    (parse_llm_response r).confidence = extractConfidence r := by
  unfold parse_llm_response
  cases extractSql r with
  | none => rfl
  | some s => by_cases hs : s = [] <;> simp [hs]

theorem parse_explanation_eq (r : List Char) :
    (parse_llm_response r).explanation = extractExplanation r := by
  unfold parse_llm_response
  cases extractSql r with
  | none => rfl
  | some s => by_cases hs : s = [] <;> simp [hs]

/-- Full value of the parser on the canonical format. -/
theorem parse_llm_response_claimFormat (S E C : List Char)
    (h1 : pyIn mEXPL S = false) (h2 : pyIn mCONF S = false) (h3 : pyIn mCONF E = false) :
    parse_llm_response (claimFormat S E C) =
      ⟨if pyStrip S = [] then fallbackQuery else pyStrip S,
        some (pyStrip E), (pyFloat C).getD (mkRat 1 2)⟩ := by
  by_cases hS : pyStrip S = [] <;>
    simp [parse_llm_response, extractSql_claimFormat S E C h1,
      extractExplanation_claimFormat S E C h1 h3,
      extractConfidence_claimFormat S E C h2 h3, hS]

/-- Full value of the spec's remainder-based algorithm on the canonical
format. -/
theorem specRemainderParse_claimFormat (S E C : List Char)
    (h1 : pyIn mEXPL S = false) (h3 : pyIn mCONF E = false) :
    specRemainderParse (claimFormat S E C) =
      ⟨if pyStrip S = [] then fallbackQuery else pyStrip S,
        some (pyStrip E), (pyFloat C).getD (mkRat 1 2)⟩ := by
  have hs1 : specRemainderStep1 (claimFormat S E C) =
      (some (pyStrip S), mEXPL ++ fmtTailE E C) := by
    simp [specRemainderStep1, splitFirst_mSQL_claimFormat, splitFirst_mEXPL_tail S E C h1,
      pyStrip_wrap]
  have hs2 : specRemainderStep2 (mEXPL ++ fmtTailE E C) =
      (some (pyStrip E), mCONF ++ (' ' :: C)) := by
    simp [specRemainderStep2, splitFirst_prefix, splitFirst_mCONF_fmtTailE E C h3, pyStrip_wrap]
  have hs3 : specRemainderStep3 (mCONF ++ (' ' :: C)) = (pyFloat C).getD (mkRat 1 2) := by
    simp only [specRemainderStep3, splitFirst_prefix, pyFloat_cons_space]
    cases pyFloat C <;> rfl
  rw [specRemainderParse, hs1]
  by_cases hS : pyStrip S = [] <;> simp [hs2, hs3, hS]

/-! ## Claim theorems -/

/-- C1 (amended): parser round-trip.  For every SQL text `S`, explanation
`E` and confidence literal `C` with value `c ∈ [0,1]`, where `S` and `E`
contain none of the three marker substrings and `S` is not whitespace-only,
parsing `"SQL: " ++ S ++ "\n" ++ "EXPLANATION: " ++ E ++ "\n" ++
"CONFIDENCE: " ++ C` recovers exactly `(S, E, c)` after whitespace
trimming.  (The original claim also covered whitespace-only `S`, where the
parser instead substitutes the fallback statement.) -/
theorem parse_roundtrip_nonblank (S E C : List Char) (c : ℚ)
    (_hS1 : pyIn mSQL S = false) (hS2 : pyIn mEXPL S = false) (hS3 : pyIn mCONF S = false)
    (_hE1 : pyIn mSQL E = false) (_hE2 : pyIn mEXPL E = false) (hE3 : pyIn mCONF E = false)
    (hC : pyFloat C = some c) (_hc0 : 0 ≤ c) (_hc1 : c ≤ 1)
    (hSne : pyStrip S ≠ []) :
    parse_llm_response (claimFormat S E C) = ⟨pyStrip S, some (pyStrip E), c⟩ := by
  rw [parse_llm_response_claimFormat S E C hS2 hS3 hE3, hC]
  simp [hSne]

/-- C1 (counterexample): with `S = ""` — which contains no marker — and
`E = "e"`, `C = "0.5"`, the claim's hypotheses hold, yet the parser
returns the fallback statement instead of the trimmed `S`. -/
theorem parse_roundtrip_blank_counterexample :
    pyIn mSQL [] = false ∧ pyIn mEXPL [] = false ∧ pyIn mCONF [] = false ∧
    pyIn mSQL "e".toList = false ∧ pyIn mEXPL "e".toList = false ∧
    pyIn mCONF "e".toList = false ∧
    pyFloat "0.5".toList = some (mkRat 1 2) ∧ 0 ≤ mkRat 1 2 ∧ mkRat 1 2 ≤ 1 ∧
    (parse_llm_response (claimFormat [] "e".toList "0.5".toList)).sqlQuery ≠ pyStrip [] := by
  decide

/-- C1 (witness): the amended round-trip at a concrete instance. -/
theorem parse_roundtrip_nonblank_witness :
    parse_llm_response
        (claimFormat "SELECT 1;".toList "counts rows".toList "0.9".toList) =
      ⟨pyStrip "SELECT 1;".toList, some (pyStrip "counts rows".toList), mkRat 9 10⟩ :=
  parse_roundtrip_nonblank _ _ _ _ (by decide) (by decide) (by decide) (by decide)
    (by decide) (by decide) (by decide) (by decide) (by decide) (by decide)

/-- A response whose fields are out of the fixed order: an `EXPLANATION:`
marker appears before the `SQL:` one. -/
def outOfOrderResponse : List Char :=
  "X EXPLANATION: hidden SQL: q EXPLANATION: real CONFIDENCE: 0.8".toList

/-- C2 (counterexample): the code splits the full text at the first
occurrence of each marker, so for the out-of-order response it disagrees
with the spec's remainder-based algorithm and includes text lying before
the `SQL:` marker in the explanation. -/
theorem parse_vs_remainder_counterexample :
    parse_llm_response outOfOrderResponse ≠ specRemainderParse outOfOrderResponse ∧
    (parse_llm_response outOfOrderResponse).explanation =
      some "hidden SQL: q EXPLANATION: real".toList ∧
    (specRemainderParse outOfOrderResponse).explanation = some "real".toList := by
  decide

/-- C2 (amended): each extraction step splits the full original response
at the first occurrence of its own marker, not the remainder left by the
previous step; on responses in the canonical order, whose `S` and `E`
parts contain no later marker, the two algorithms agree. -/
theorem parse_matches_remainder_on_canonical (S E C : List Char)
    (h1 : pyIn mEXPL S = false) (h2 : pyIn mCONF S = false) (h3 : pyIn mCONF E = false) :
    parse_llm_response (claimFormat S E C) = specRemainderParse (claimFormat S E C) := by
  rw [parse_llm_response_claimFormat S E C h1 h2 h3, specRemainderParse_claimFormat S E C h1 h3]

/-- C2 (witness): the agreement at a concrete canonical response. -/
theorem parse_matches_remainder_witness :
    parse_llm_response (claimFormat "SELECT 2;".toList "two".toList "0.7".toList) =
      specRemainderParse (claimFormat "SELECT 2;".toList "two".toList "0.7".toList) :=
  parse_matches_remainder_on_canonical _ _ _ (by decide) (by decide) (by decide)

/-- C4 (amended): the confidence returned by the parser is in `[0, 1]`
except that a parseable confidence text is passed through verbatim, with
no clamping: in every case it is either in the unit interval or exactly
the parsed float. -/
theorem parse_confidence_unit_or_verbatim (r : List Char) :
    (0 ≤ (parse_llm_response r).confidence ∧ (parse_llm_response r).confidence ≤ 1) ∨
      confidenceParsed r = some ((parse_llm_response r).confidence) := by
  rw [parse_confidence_eq]
  unfold extractConfidence confidenceParsed
  cases splitFirst mCONF r with
  | none => exact Or.inl (by constructor <;> decide)
  | some q =>
    obtain ⟨pre, tail⟩ := q
    cases hq : pyFloat tail with
    | none =>
      left
      simp only [hq]
      exact ⟨by decide, by decide⟩
    | some c =>
      right
      simp only [hq]

/-- C4 (counterexample): `CONFIDENCE: 2` parses to confidence `2`, which
is outside `[0, 1]`. -/
theorem parse_confidence_out_of_range :
    (parse_llm_response "SQL: q\nCONFIDENCE: 2".toList).confidence = 2 ∧
      ¬((parse_llm_response "SQL: q\nCONFIDENCE: 2".toList).confidence ≤ 1) := by
  decide

/-- C6: any response without the `SQL:` marker parses to the fixed
fallback statement `SELECT * FROM cars LIMIT 10;`, whatever else it
contains. -/
theorem missing_sql_marker_fallback (r : List Char) (h : pyIn mSQL r = false) :
    (parse_llm_response r).sqlQuery = fallbackQuery := by
  have hs : splitFirst mSQL r = none := by
    revert h
    unfold pyIn
    cases splitFirst mSQL r <;> simp
  simp [parse_llm_response, extractSql, hs]

/-- C6 (witness). -/
theorem missing_sql_marker_fallback_witness :
    pyIn mSQL "EXPLANATION: no query here".toList = false ∧
      (parse_llm_response "EXPLANATION: no query here".toList).sqlQuery = fallbackQuery :=
  ⟨by decide, missing_sql_marker_fallback _ (by decide)⟩

/-- C7: when the `CONFIDENCE:` marker is present but the text after it is
not parseable as a float, the confidence is exactly `0.5`; when the
marker is absent, it is exactly `0.0`. -/
theorem confidence_default_split (r : List Char) :
    ((pyIn mCONF r = true ∧ confidenceParsed r = none) →
        (parse_llm_response r).confidence = mkRat 1 2) ∧
      (pyIn mCONF r = false → (parse_llm_response r).confidence = 0) := by
  rw [parse_confidence_eq]
  unfold extractConfidence confidenceParsed pyIn
  constructor
  · rintro ⟨hin, hnone⟩
    cases hs : splitFirst mCONF r with
    | none =>
      rw [hs] at hin
      simp at hin
    | some q =>
      obtain ⟨pre, tail⟩ := q
      rw [hs] at hnone
      simp only [] at hnone
      simp only [hs, hnone]
  · intro h
    cases hs : splitFirst mCONF r with
    | none => simp only [hs]
    | some q =>
      rw [hs] at h
      simp at h

/-- C7 (witness): the two defaults at concrete inputs. -/
theorem confidence_default_split_witness :
    (parse_llm_response "SQL: q\nCONFIDENCE: notanumber".toList).confidence = mkRat 1 2 ∧
      (parse_llm_response "SQL: q\nEXPLANATION: e".toList).confidence = 0 :=
  ⟨(confidence_default_split _).1 ⟨by decide, by decide⟩,
    (confidence_default_split _).2 (by decide)⟩

/-- C10: when the `SQL:` marker is present but the candidate between it
and the next `EXPLANATION:` marker (or the end of text) strips to the
empty string, the parser substitutes the fallback statement rather than
returning an empty string. -/
theorem blank_sql_candidate_fallback (r : List Char) (h : extractSql r = some []) :
    (parse_llm_response r).sqlQuery = fallbackQuery := by
  simp [parse_llm_response, h]

/-- C10 (witness): `SQL:` directly followed by whitespace and the next
marker. -/
theorem blank_sql_candidate_fallback_witness :
    extractSql "SQL:   \nEXPLANATION: nothing".toList = some [] ∧
      (parse_llm_response "SQL:   \nEXPLANATION: nothing".toList).sqlQuery = fallbackQuery :=
  ⟨by decide, blank_sql_candidate_fallback _ (by decide)⟩

/-- C3 (code evaluation at the failing input): with a configured database
and a successful connection, a `psycopg2.Error` raised by the statement —
malformed SQL or a constraint violation — produces an HTTP 500 response,
not the 400 the inner handler constructs: the outer `except Exception`
catches the `HTTPException(400)` and re-raises it as a 500 whose detail
wraps the original `400: Query execution error: ...` text. -/
theorem execute_query_statement_error_returns_500 (url msg : List Char) :
    execute_query ⟨some url, .ok (), .pgError msg⟩ =
      .error ⟨500, "Error: 400: Query execution error: ".toList ++ msg⟩ := rfl

/-- C3 (the 500 is not specific to statement errors: a missing
`DATABASE_URL` also surfaces as 500, as the spec says). -/
theorem execute_query_no_url_returns_500 :
    execute_query ⟨none, .ok (), .success [] none⟩ =
      .error ⟨500, "Error: 500: Database connection not configured".toList⟩ := rfl

/-- C5 (code evaluation at the failing input): with `DATABASE_URL` set, a
successful `psycopg2.connect` and a failing `pg_tables` catalog query,
`get_database_schema` returns the hardcoded fallback but leaves the one
connection it opened unclosed — `conn.close()` sits only on the success
path and there is no `finally`. -/
theorem schema_fetch_leaks_connection_on_catalog_error :
    get_database_schema
        ⟨some "postgresql://db".toList, true, .error "catalog failure".toList,
          fun _ => .ok []⟩ =
      ⟨get_hardcoded_schema, 1, 0⟩ := rfl

/-- On the success path the connection is closed. -/
theorem schema_fetch_closes_connection_on_success :
    (get_database_schema
        ⟨some "postgresql://db".toList, true, .ok ["cars".toList],
          fun _ => .ok [("id".toList, "integer".toList, "NO".toList)]⟩).opened = 1 ∧
      (get_database_schema
        ⟨some "postgresql://db".toList, true, .ok ["cars".toList],
          fun _ => .ok [("id".toList, "integer".toList, "NO".toList)]⟩).closed = 1 := by
  decide

/-- C8: on every failure mode — `DATABASE_URL` unset, `psycopg2.connect`
failing, the table catalog query failing, or any per-table column query
failing — `get_database_schema` returns the same fixed hardcoded
fallback schema, independent of which failure occurred; no failure
escapes to the caller (the embedding is a total function). -/
theorem schema_fetch_failure_returns_hardcoded (env : SchemaEnv)
    (h : env.databaseUrl = none ∨ env.connectOk = false ∨
      (∃ e, env.tablesResult = .error e) ∨
      (∃ ts, env.tablesResult = .ok ts ∧ ∃ e, buildSchema env ts = .error e)) :
    (get_database_schema env).schema = get_hardcoded_schema := by
  unfold get_database_schema
  rcases h with h | h | ⟨e, he⟩ | ⟨ts, hts, e, he⟩
  · rw [h]
  · cases hu : env.databaseUrl with
    | none => rfl
    | some u => simp [h]
  · cases hu : env.databaseUrl with
    | none => rfl
    | some u =>
      cases hc : env.connectOk with
      | false => simp
      | true => simp [he]
  · cases hu : env.databaseUrl with
    | none => rfl
    | some u =>
      cases hc : env.connectOk with
      | false => simp
      | true => simp [hts, he]

/-- C8 (witness): the fallback at one concrete failing environment. -/
theorem schema_fetch_failure_returns_hardcoded_witness :
    (get_database_schema ⟨some "u".toList, true, .error "boom".toList, fun _ => .ok []⟩).schema =
      get_hardcoded_schema :=
  schema_fetch_failure_returns_hardcoded _ (Or.inr (Or.inr (Or.inl ⟨"boom".toList, rfl⟩)))

/-- C9: with an absent (`None`) or empty schema mapping, the generated
prompt contains the literal text `"No schema available."` and the literal
question text. -/
theorem empty_schema_prompt_contents (q : List Char) :
    (pyIn noSchemaText (generate_prompt q none) = true ∧
        pyIn q (generate_prompt q none) = true) ∧
      (pyIn noSchemaText (generate_prompt q (some [])) = true ∧
        pyIn q (generate_prompt q (some [])) = true) := by
  have hform : ∀ db : Option DbSchema, format_schema_for_prompt db = noSchemaText →
      pyIn noSchemaText (generate_prompt q db) = true ∧
        pyIn q (generate_prompt q db) = true := by
    intro db hdb
    constructor
    · rw [generate_prompt, hdb]
      exact pyIn_append_middle _ _ _
    · rw [generate_prompt, hdb]
      have hshape : promptPre ++ (noSchemaText ++ (promptMid ++ (q ++ promptPost))) =
          (promptPre ++ (noSchemaText ++ promptMid)) ++ (q ++ promptPost) := by
        simp [List.append_assoc]
      rw [hshape]
      exact pyIn_append_middle _ _ _
  exact ⟨hform none rfl, hform (some []) rfl⟩
